import Mathlib

/-!
Verification development for `tess_lc_2_csv.py`: the script exports the HDU 1
binary table of a TESS FITS light-curve file to CSV, filtering rows whose
TIME or SAP_FLUX entry is masked or NaN, deriving a shifted-time column
(BJD_TDB), an instrumental magnitude `-2.5 * log10(SAP_FLUX)`, a calibrated
magnitude column (Source_AMag_T1) anchored by the TESSMAG header value via a
median zero point, and an error-propagation column (Source_AMag_Error_T1).

Floating-point values are modelled by `EF`: a rational number, NaN, or a
signed infinity, with IEEE-style propagation in `add`, `mul`, `div` and
`log10`.  Since `log10` of a positive rational is irrational in general, the
finite part of the logarithm is a parameter `lg : ℚ → ℚ` of the development;
every theorem quantifying over `lg` holds in particular for (any rational
reading of) the true base-10 logarithm.  `np.nanmedian` over the finite
magnitudes is modelled by `medianOf` (sort, take the middle element, or the
mean of the two middle elements for an even count), which agrees with numpy
on NaN-free data.
-/

namespace TessLc

/-- Extended float: a finite rational, NaN, or a signed infinity. -/
inductive EF where
  | fin : ℚ → EF
  | nan : EF
  | pinf : EF
  | ninf : EF
deriving DecidableEq, Repr

namespace EF

/-- True exactly on NaN (models `np.isnan`). -/
def isNaN : EF → Bool
  | nan => true
  | _ => false

/-- True exactly on finite values (models `np.isfinite`). -/
def isFinite : EF → Bool
  | fin _ => true
  | _ => false

/-- The rational carried by a finite value, `none` otherwise. -/
def toFinite : EF → Option ℚ
  | fin q => some q
  | _ => none

/-- IEEE-style addition: NaN propagates, opposite infinities give NaN. -/
def add : EF → EF → EF
  | nan, _ => nan
  | _, nan => nan
  | pinf, ninf => nan
  | ninf, pinf => nan
  | pinf, _ => pinf
  | _, pinf => pinf
  | ninf, _ => ninf
  | _, ninf => ninf
  | fin a, fin b => fin (a + b)

/-- IEEE-style multiplication: NaN propagates, zero times infinity is NaN. -/
def mul : EF → EF → EF
  | nan, _ => nan
  | _, nan => nan
  | fin a, fin b => fin (a * b)
  | fin a, pinf => if 0 < a then pinf else if a < 0 then ninf else nan
  | fin a, ninf => if 0 < a then ninf else if a < 0 then pinf else nan
  | pinf, fin b => if 0 < b then pinf else if b < 0 then ninf else nan
  | ninf, fin b => if 0 < b then ninf else if b < 0 then pinf else nan
  | pinf, pinf => pinf
  | pinf, ninf => ninf
  | ninf, pinf => ninf
  | ninf, ninf => pinf

/-- IEEE-style division (with a single zero, treated as +0): a finite value
divided by zero gives a signed infinity or NaN for 0/0; infinity divided by
infinity gives NaN. -/
def div : EF → EF → EF
  | nan, _ => nan
  | _, nan => nan
  | fin a, fin b =>
      if b = 0 then (if 0 < a then pinf else if a < 0 then ninf else nan)
      else fin (a / b)
  | fin _, pinf => fin 0
  | fin _, ninf => fin 0
  | pinf, fin b => if 0 ≤ b then pinf else ninf
  | ninf, fin b => if 0 ≤ b then ninf else pinf
  | pinf, _ => nan
  | ninf, _ => nan

/-- Base-10 logarithm, with the finite branch given by the parameter `lg`
(models `np.log10` under `errstate` suppression: log of a negative is NaN,
log of zero is `-inf`). -/
def log10 (lg : ℚ → ℚ) : EF → EF
  | fin x => if 0 < x then fin (lg x) else if x = 0 then ninf else nan
  | nan => nan
  | pinf => pinf
  | ninf => nan

/-- True on values that are `≤ 0` in the IEEE order: a nonpositive finite
value or `-inf` (NaN is not comparable hence false). -/
def isNonpos : EF → Bool
  | fin q => decide (q ≤ 0)
  | ninf => true
  | _ => false

theorem add_fin_right_isFinite (x : EF) (c : ℚ) :
    (x.add (fin c)).isFinite = x.isFinite := by
  cases x <;> rfl

theorem add_fin_right_toFinite (x : EF) (c : ℚ) :
    (x.add (fin c)).toFinite = x.toFinite.map (· + c) := by
  cases x <;> rfl

end EF

/-- Median of a list of rationals, as `np.median` computes it on NaN-free
data: sort, then take the middle element (odd length) or the mean of the two
middle elements (even length). -/
def medianOf (l : List ℚ) : ℚ :=
  let s := l.insertionSort (· ≤ ·)
  if l.length % 2 = 1 then s.getD (l.length / 2) 0
  else (s.getD (l.length / 2 - 1) 0 + s.getD (l.length / 2) 0) / 2

theorem insertionSort_map_add (l : List ℚ) (c : ℚ) :
    (l.map (· + c)).insertionSort (· ≤ ·) =
      (l.insertionSort (· ≤ ·)).map (· + c) := by
  haveI : IsAntisymm ℚ (· ≤ ·) := ⟨fun _ _ h h' => le_antisymm h h'⟩
  refine List.eq_of_perm_of_sorted (r := (· ≤ ·)) ?_ ?_ ?_
  · exact ((l.map (· + c)).perm_insertionSort (· ≤ ·)).trans
      ((l.perm_insertionSort (· ≤ ·)).map (· + c)).symm
  · exact List.sorted_insertionSort (· ≤ ·) (l.map (· + c))
  · exact List.Pairwise.map (· + c) (fun a b h => by simpa using h)
      (List.sorted_insertionSort (· ≤ ·) l)

theorem getD_map_add (l : List ℚ) (c : ℚ) (n : ℕ) (hn : n < l.length) :
    (l.map (· + c)).getD n 0 = l.getD n 0 + c := by
  have hn' : n < (l.map (· + c)).length := by simpa using hn
  rw [List.getD_eq_getElem _ _ hn', List.getD_eq_getElem _ _ hn,
    List.getElem_map]

theorem length_insertionSort (l : List ℚ) :
    (l.insertionSort (· ≤ ·)).length = l.length :=
  (l.perm_insertionSort (· ≤ ·)).length_eq

theorem medianOf_map_add (l : List ℚ) (c : ℚ) (hne : l ≠ []) :
    medianOf (l.map (· + c)) = medianOf l + c := by
  have hlen : (l.map (· + c)).length = l.length := by simp
  have hpos : 0 < l.length := List.length_pos.mpr hne
  unfold medianOf
  rw [hlen, insertionSort_map_add]
  rcases Nat.even_or_odd l.length with he | ho
  · have h2 : l.length % 2 = 0 := Nat.even_iff.mp he
    have h2' : ¬ l.length % 2 = 1 := by omega
    simp only [h2', if_false]
    have hi1 : l.length / 2 - 1 < (l.insertionSort (· ≤ ·)).length := by
      rw [length_insertionSort]; omega
    have hi2 : l.length / 2 < (l.insertionSort (· ≤ ·)).length := by
      rw [length_insertionSort]
      have : l.length ≠ 1 := by omega
      omega
    rw [getD_map_add _ _ _ hi1, getD_map_add _ _ _ hi2]
    ring
  · have h2 : l.length % 2 = 1 := Nat.odd_iff.mp ho
    simp only [h2, if_true]
    have hi : l.length / 2 < (l.insertionSort (· ≤ ·)).length := by
      rw [length_insertionSort]; omega
    rw [getD_map_add _ _ _ hi]

/-- One row of the HDU 1 table: the TIME, SAP_FLUX and SAP_FLUX_ERR entries
together with the explicit per-value mask bits of the TIME and SAP_FLUX
columns (a column without a mask array is modelled by all-false bits, which
is observationally identical to `np.ma.nomask`). -/
structure Row where
  time : EF
  timeMasked : Bool
  flux : EF
  fluxMasked : Bool
  fluxErr : EF
deriving DecidableEq, Repr

/-- The HDU 1 table: which optional columns are present, and the rows.  The
TIME and SAP_FLUX_ERR columns are optional; SAP_FLUX presence is checked at
the `run` level (exit 5 when absent). -/
structure Table where
  hasTime : Bool
  hasFluxErr : Bool
  rows : List Row
deriving DecidableEq, Repr

/-- Keep predicate of the TIME filtering stage (line 115 of the source):
not explicitly masked and not NaN. -/
def timeKeep (r : Row) : Bool := !r.timeMasked && !r.time.isNaN

/-- Keep predicate of the SAP_FLUX filtering stage (line 134): not
explicitly masked and not NaN. -/
def fluxKeep (r : Row) : Bool := !r.fluxMasked && !r.flux.isNaN

/-- Masked-or-NaN predicate for the TIME entry of a row. -/
def maskedTime (r : Row) : Bool := r.timeMasked || r.time.isNaN

/-- Masked-or-NaN predicate for the SAP_FLUX entry of a row. -/
def maskedFlux (r : Row) : Bool := r.fluxMasked || r.flux.isNaN

/-- The validity filter of `main` (lines 105-135): filter on the TIME
column when it exists, then on the SAP_FLUX column. -/
def filterRows (t : Table) : List Row :=
  let r1 := if t.hasTime then t.rows.filter timeKeep else t.rows
  r1.filter fluxKeep

/-- Instrumental magnitude `-2.5 * np.log10(flux)` (line 146). -/
def instrMag (lg : ℚ → ℚ) (f : EF) : EF :=
  EF.mul (EF.fin (-(5/2))) (EF.log10 lg f)

/-- The raw magnitude column `raw_mag` of the filtered table. -/
def rawMags (lg : ℚ → ℚ) (rows : List Row) : List EF :=
  rows.map (fun r => instrMag lg r.flux)

/-- The finite entries of `raw_mag`, in row order: exactly the values that
`raw_mag[valid_mask]` selects for the median (line 153). -/
def validMags (lg : ℚ → ℚ) (rows : List Row) : List ℚ :=
  (rawMags lg rows).filterMap EF.toFinite

/-- The calibration zero point (lines 155-158): `TESSMAG - median` when the
header key is present, else `0.0`.  Only meaningful when the finite subset
is non-empty, matching the `np.any(valid_mask)` guard. -/
def zeroPoint (tessMag : Option ℚ) (vm : List ℚ) : ℚ :=
  match tessMag with
  | some m => m - medianOf vm
  | none => 0

/-- The Source_AMag_T1 column (lines 150-162): `raw_mag + zero_point` when
some magnitude is finite, otherwise NaN everywhere. -/
def amagCol (lg : ℚ → ℚ) (tessMag : Option ℚ) (rows : List Row) : List EF :=
  let raw := rawMags lg rows
  let vm := validMags lg rows
  if vm.isEmpty then raw.map (fun _ => EF.nan)
  else raw.map (fun x => x.add (EF.fin (zeroPoint tessMag vm)))

/-- One entry of the Source_AMag_Error_T1 column (line 170):
`1.0857 * (fluxErr / flux)`. -/
def magErrVal (r : Row) : EF :=
  EF.mul (EF.fin (10857/10000)) (r.fluxErr.div r.flux)

/-- Result of the extract-and-transform pipeline of `main` on the HDU 1
table (lines 105-173): the surviving rows, the derived columns (BJD_TDB and
Source_AMag_Error_T1 are `none` when their source column is absent), and
the two warning flags written to stderr. -/
structure Output where
  rows : List Row
  bjd : Option (List EF)
  amag : List EF
  amagErr : Option (List EF)
  warnNoTessMag : Bool
  warnNoFluxErr : Bool
deriving DecidableEq, Repr

/-- The pipeline of `main` on a loaded HDU 1 table, given the TESSMAG value
of the primary header (`none` when the key is absent). -/
def pipeline (lg : ℚ → ℚ) (tessMag : Option ℚ) (t : Table) : Output :=
  let rows := filterRows t
  { rows := rows
    bjd := if t.hasTime then some (rows.map (fun r => r.time.add (EF.fin 2457000))) else none
    amag := amagCol lg tessMag rows
    amagErr := if t.hasFluxErr then some (rows.map magErrVal) else none
    warnNoTessMag := tessMag.isNone
    warnNoFluxErr := !t.hasFluxErr }

/-- The HDU at index 1, as `main` distinguishes it: absent
(`len(hdul) <= 1`), not a table HDU, a table HDU with no data, or a table
(with a flag recording whether the SAP_FLUX column exists). -/
inductive Hdu1 where
  | absent : Hdu1
  | nonTable : Hdu1
  | noData : Hdu1
  | tbl : Bool → Table → Hdu1
deriving DecidableEq, Repr

/-- The parts of a FITS file that `main` reads: the TESSMAG key of the
primary header and HDU 1. -/
structure Fits where
  tessMag : Option ℚ
  hdu1 : Hdu1
deriving DecidableEq, Repr

/-- Content of the destination path: either a pre-existing file of unknown
content, or a CSV serialized from a pipeline output. -/
inductive CsvData where
  | raw : Nat → CsvData
  | out : Output → CsvData
deriving DecidableEq, Repr

/-- The file-system state `main` touches: the input FITS file (`none` when
the path does not exist) and the destination CSV path (`none` when no file
is there). -/
structure World where
  inputFits : Option Fits
  destContent : Option CsvData
deriving DecidableEq, Repr

/-- The command-line arguments after parsing: the `--overwrite` flag and the
`--zero-point` option (default 0.0). -/
structure Args where
  overwrite : Bool
  zeroPointArg : ℚ
deriving DecidableEq, Repr

/-- Result of a run of `main`: the exit code, the destination content after
the run, and the pipeline output that was written (`none` when the run
failed before writing). -/
structure RunResult where
  exitCode : Nat
  destContent : Option CsvData
  written : Option Output
deriving DecidableEq, Repr

/-- The control flow of `main` (lines 68-195): input-existence check (exit
2), destination-overwrite guard (exit 6, before the FITS file is even
opened), structural checks on HDU 1 and the SAP_FLUX column (exit 5), then
the pipeline and the CSV write (exit 0). -/
def run (lg : ℚ → ℚ) (w : World) (a : Args) : RunResult :=
  match w.inputFits with
  | none => { exitCode := 2, destContent := w.destContent, written := none }
  | some f =>
    if w.destContent.isSome && !a.overwrite then
      { exitCode := 6, destContent := w.destContent, written := none }
    else
      match f.hdu1 with
      | Hdu1.absent => { exitCode := 5, destContent := w.destContent, written := none }
      | Hdu1.nonTable => { exitCode := 5, destContent := w.destContent, written := none }
      | Hdu1.noData => { exitCode := 5, destContent := w.destContent, written := none }
      | Hdu1.tbl hasFluxCol t =>
        if !hasFluxCol then
          { exitCode := 5, destContent := w.destContent, written := none }
        else
          let o := pipeline lg f.tessMag t
          { exitCode := 0, destContent := some (CsvData.out o), written := some o }

/-- Sample finite reading of `log10`, used to instantiate theorems at
concrete inputs (its values at 10, 20, 100 are rational stand-ins for the
true logarithms). -/
def lgW : ℚ → ℚ := fun x =>
  if x = 10 then 1 else if x = 20 then 1301/1000 else if x = 100 then 2 else 0

theorem timeKeep_eq_not_maskedTime (r : Row) : timeKeep r = !maskedTime r := by
  simp [timeKeep, maskedTime]

theorem fluxKeep_eq_not_maskedFlux (r : Row) : fluxKeep r = !maskedFlux r := by
  simp [fluxKeep, maskedFlux]

theorem length_filter_eq_sub {α : Type} (p : α → Bool) (l : List α) :
    (l.filter p).length = l.length - l.countP (fun a => !p a) := by
  have h := List.length_eq_countP_add_countP p l
  have h2 : l.countP (fun a => !p a) = l.countP (fun a => decide ¬p a = true) := by
    apply List.countP_congr
    intro a _
    simp
  rw [← List.countP_eq_length_filter]
  omega

/-- C4: for every input table, the surviving rows are exactly those not
masked-or-NaN in TIME (when a TIME column exists) and not masked-or-NaN in
SAP_FLUX, and the output row count is the input row count minus the size of
the union of the two exclusion sets, counted once. -/
theorem c4_row_count (t : Table) :
    filterRows t =
      t.rows.filter (fun r => (!t.hasTime || !maskedTime r) && !maskedFlux r) ∧
    (filterRows t).length =
      t.rows.length - t.rows.countP (fun r => (t.hasTime && maskedTime r) || maskedFlux r) := by
  have hmain : filterRows t =
      t.rows.filter (fun r => (!t.hasTime || !maskedTime r) && !maskedFlux r) := by
    cases ht : t.hasTime with
    | true =>
      have hfr : filterRows t = (t.rows.filter timeKeep).filter fluxKeep := by
        simp [filterRows, ht]
      rw [hfr, List.filter_filter]
      apply List.filter_congr
      intro r _
      rw [fluxKeep_eq_not_maskedFlux, timeKeep_eq_not_maskedTime]
      cases maskedTime r <;> cases maskedFlux r <;> rfl
    | false =>
      have hfr : filterRows t = t.rows.filter fluxKeep := by
        simp [filterRows, ht]
      rw [hfr]
      apply List.filter_congr
      intro r _
      rw [fluxKeep_eq_not_maskedFlux]
      cases maskedFlux r <;> rfl
  refine ⟨hmain, ?_⟩
  rw [hmain, length_filter_eq_sub]
  congr 1
  apply List.countP_congr
  intro r _
  cases t.hasTime <;> cases maskedTime r <;> cases maskedFlux r <;> rfl

/-- C8: for every table with both a TIME and a SAP_FLUX column, filtering
by TIME then SAP_FLUX equals filtering by SAP_FLUX then TIME, and both
equal one conjunctive filtering pass, which is exactly what `filterRows`
computes. -/
theorem c8_filter_commute (t : Table) (ht : t.hasTime = true) :
    (t.rows.filter timeKeep).filter fluxKeep =
      (t.rows.filter fluxKeep).filter timeKeep ∧
    (t.rows.filter timeKeep).filter fluxKeep =
      t.rows.filter (fun r => timeKeep r && fluxKeep r) ∧
    filterRows t = t.rows.filter (fun r => timeKeep r && fluxKeep r) := by
  have h1 : (t.rows.filter timeKeep).filter fluxKeep =
      t.rows.filter (fun r => timeKeep r && fluxKeep r) := by
    rw [List.filter_filter]
    apply List.filter_congr
    intro r _
    cases timeKeep r <;> cases fluxKeep r <;> rfl
  have h2 : (t.rows.filter fluxKeep).filter timeKeep =
      t.rows.filter (fun r => timeKeep r && fluxKeep r) := by
    rw [List.filter_filter]
  refine ⟨h1.trans h2.symm, h1, ?_⟩
  have hfr : filterRows t = (t.rows.filter timeKeep).filter fluxKeep := by
    simp [filterRows, ht]
  rw [hfr]
  exact h1

/-- Concrete table used to instantiate C8: one clean row, one NaN-time row,
one masked-flux row. -/
def tW : Table :=
  { hasTime := true
    hasFluxErr := true
    rows :=
      [ { time := EF.fin 1, timeMasked := false, flux := EF.fin 10,
          fluxMasked := false, fluxErr := EF.fin 1 }
      , { time := EF.nan, timeMasked := false, flux := EF.fin 10,
          fluxMasked := false, fluxErr := EF.fin 1 }
      , { time := EF.fin 3, timeMasked := false, flux := EF.fin 5,
          fluxMasked := true, fluxErr := EF.fin 1 } ] }

/-- Witness for C8 at the concrete table `tW`. -/
theorem c8_filter_commute_witness :
    (tW.rows.filter timeKeep).filter fluxKeep =
      (tW.rows.filter fluxKeep).filter timeKeep ∧
    (tW.rows.filter timeKeep).filter fluxKeep =
      tW.rows.filter (fun r => timeKeep r && fluxKeep r) ∧
    filterRows tW = tW.rows.filter (fun r => timeKeep r && fluxKeep r) :=
  c8_filter_commute tW rfl

/-- C10 (as stated, confirmed): two runs on the same input that differ only
in the `--zero-point` option produce identical results; the parsed option is
never consumed by the pipeline. -/
theorem c10_zero_point_unused (lg : ℚ → ℚ) (w : World) (ov : Bool) (zp1 zp2 : ℚ) :
    run lg w { overwrite := ov, zeroPointArg := zp1 } =
      run lg w { overwrite := ov, zeroPointArg := zp2 } := rfl

/-- C9 counterexample: when the destination exists, overwrite is false, but
the input file is missing, the run exits with code 2 (file not found), not
6, so the unconditional claim fails. -/
theorem c9_counterexample :
    (run lgW { inputFits := none, destContent := some (CsvData.raw 0) }
        { overwrite := false, zeroPointArg := 0 }).exitCode = 2 ∧
    (run lgW { inputFits := none, destContent := some (CsvData.raw 0) }
        { overwrite := false, zeroPointArg := 0 }).exitCode ≠ 6 :=
  ⟨rfl, by decide⟩

/-- C9 (amended): for every invocation whose input file exists, if the
destination CSV path exists and the overwrite flag is false, the run exits
with code 6 before any write occurs and the destination content is left
unchanged. -/
theorem c9_dest_guard (lg : ℚ → ℚ) (w : World) (a : Args) (f : Fits)
    (hin : w.inputFits = some f) (hdest : w.destContent.isSome = true)
    (hov : a.overwrite = false) :
    (run lg w a).exitCode = 6 ∧ (run lg w a).destContent = w.destContent ∧
      (run lg w a).written = none := by
  unfold run
  rw [hin]
  simp [hdest, hov]

/-- Witness for C9 (amended) at a concrete world. -/
theorem c9_dest_guard_witness :
    (run lgW { inputFits := some { tessMag := some 10, hdu1 := Hdu1.absent },
               destContent := some (CsvData.raw 7) }
        { overwrite := false, zeroPointArg := 0 }).exitCode = 6 ∧
    (run lgW { inputFits := some { tessMag := some 10, hdu1 := Hdu1.absent },
               destContent := some (CsvData.raw 7) }
        { overwrite := false, zeroPointArg := 0 }).destContent =
      some (CsvData.raw 7) ∧
    (run lgW { inputFits := some { tessMag := some 10, hdu1 := Hdu1.absent },
               destContent := some (CsvData.raw 7) }
        { overwrite := false, zeroPointArg := 0 }).written = none :=
  c9_dest_guard lgW _ _ _ rfl rfl rfl

theorem EF.add_fin_zero (x : EF) : x.add (EF.fin 0) = x := by
  cases x <;> simp [EF.add]

theorem map_add_fin_zero (l : List EF) :
    l.map (fun x => x.add (EF.fin 0)) = l := by
  induction l with
  | nil => rfl
  | cons x xs ih => simp [EF.add_fin_zero, ih]

/-- With no reference magnitude and a non-empty finite subset, the
Source_AMag_T1 column is the raw magnitude column unchanged (zero point
0.0, line 158 of the source). -/
theorem amagCol_none_eq_raw (lg : ℚ → ℚ) (rows : List Row)
    (hne : validMags lg rows ≠ []) :
    amagCol lg none rows = rawMags lg rows := by
  have hvm : (validMags lg rows).isEmpty = false := List.isEmpty_eq_false.mpr hne
  simp only [amagCol, hvm, Bool.false_eq_true, if_false, zeroPoint]
  exact map_add_fin_zero _

/-- C3: when TESSMAG is absent and some instrumental magnitude is finite,
the zero point is 0.0 and Source_AMag_T1 equals `-2.5 * log10(SAP_FLUX)`
elementwise; no median is subtracted. -/
theorem c3_no_tessmag_identity (lg : ℚ → ℚ) (t : Table)
    (hne : validMags lg (filterRows t) ≠ []) :
    zeroPoint none (validMags lg (filterRows t)) = 0 ∧
    amagCol lg none (filterRows t) = rawMags lg (filterRows t) ∧
    (pipeline lg none t).amag = rawMags lg (filterRows t) ∧
    (pipeline lg none t).warnNoTessMag = true :=
  ⟨rfl, amagCol_none_eq_raw lg _ hne, amagCol_none_eq_raw lg _ hne, rfl⟩

/-- Witness for C3 at the concrete table `tW`. -/
theorem c3_no_tessmag_identity_witness :
    zeroPoint none (validMags lgW (filterRows tW)) = 0 ∧
    amagCol lgW none (filterRows tW) = rawMags lgW (filterRows tW) ∧
    (pipeline lgW none tW).amag = rawMags lgW (filterRows tW) ∧
    (pipeline lgW none tW).warnNoTessMag = true :=
  c3_no_tessmag_identity lgW tW (by decide)

/-- Concrete one-row table with SAP_FLUX 100 (so the instrumental magnitude
under `lgW` is exactly -5 and the median is -5, nonzero). -/
def tC2 : Table :=
  { hasTime := true
    hasFluxErr := true
    rows :=
      [ { time := EF.fin 1, timeMasked := false, flux := EF.fin 100,
          fluxMasked := false, fluxErr := EF.fin 1 } ] }

/-- C2 counterexample: with no reference magnitude the code does not
subtract the median; on `tC2` the claimed column (raw minus median) differs
from the computed Source_AMag_T1 column. -/
theorem c2_counterexample :
    amagCol lgW none (filterRows tC2) ≠
      (rawMags lgW (filterRows tC2)).map
        (fun x => x.add (EF.fin (0 - medianOf (validMags lgW (filterRows tC2))))) := by
  have hraw : rawMags lgW (filterRows tC2) = [EF.fin (-5)] := by
    norm_num [rawMags, filterRows, tC2, instrMag, EF.log10, EF.mul, lgW,
      timeKeep, fluxKeep, EF.isNaN]
  have hvm : validMags lgW (filterRows tC2) = [-5] := by
    simp [validMags, hraw, EF.toFinite]
  have hmed : medianOf (validMags lgW (filterRows tC2)) = -5 := by
    rw [hvm]
    norm_num [medianOf, List.insertionSort, List.orderedInsert]
  have hamag : amagCol lgW none (filterRows tC2) = [EF.fin (-5)] := by
    rw [amagCol_none_eq_raw lgW _ (by rw [hvm]; decide), hraw]
  rw [hamag, hraw, hmed]
  norm_num [EF.add]

/-- C2 (amended): when no reference magnitude is present, the calibration
constant is 0.0 (not the negative median), so every calibrated entry equals
the corresponding instrumental entry and a warning is flagged. -/
theorem c2_no_reference_zero (lg : ℚ → ℚ) (t : Table)
    (hne : validMags lg (filterRows t) ≠ []) (i : ℕ) :
    zeroPoint none (validMags lg (filterRows t)) = 0 ∧
    (amagCol lg none (filterRows t))[i]? = (rawMags lg (filterRows t))[i]? ∧
    (pipeline lg none t).warnNoTessMag = true :=
  ⟨rfl, by rw [amagCol_none_eq_raw lg _ hne], rfl⟩

/-- Witness for C2 (amended) at the concrete table `tC2`, row 0. -/
theorem c2_no_reference_zero_witness :
    zeroPoint none (validMags lgW (filterRows tC2)) = 0 ∧
    (amagCol lgW none (filterRows tC2))[0]? = (rawMags lgW (filterRows tC2))[0]? ∧
    (pipeline lgW none tC2).warnNoTessMag = true :=
  c2_no_reference_zero lgW tC2 (by decide) 0

theorem filterMap_toFinite_map_add (l : List EF) (c : ℚ) :
    (l.map (fun x => x.add (EF.fin c))).filterMap EF.toFinite =
      (l.filterMap EF.toFinite).map (· + c) := by
  induction l with
  | nil => rfl
  | cons x xs ih =>
    cases x with
    | fin a =>
      rw [List.map_cons,
        List.filterMap_cons_some
          (show EF.toFinite ((EF.fin a).add (EF.fin c)) = some (a + c) from rfl),
        List.filterMap_cons_some
          (show EF.toFinite (EF.fin a) = some a from rfl),
        List.map_cons, ih]
    | nan =>
      rw [List.map_cons,
        List.filterMap_cons_none
          (show EF.toFinite (EF.nan.add (EF.fin c)) = none from rfl),
        List.filterMap_cons_none
          (show EF.toFinite EF.nan = none from rfl), ih]
    | pinf =>
      rw [List.map_cons,
        List.filterMap_cons_none
          (show EF.toFinite (EF.pinf.add (EF.fin c)) = none from rfl),
        List.filterMap_cons_none
          (show EF.toFinite EF.pinf = none from rfl), ih]
    | ninf =>
      rw [List.map_cons,
        List.filterMap_cons_none
          (show EF.toFinite (EF.ninf.add (EF.fin c)) = none from rfl),
        List.filterMap_cons_none
          (show EF.toFinite EF.ninf = none from rfl), ih]

/-- With a non-empty finite subset, the Source_AMag_T1 column is the raw
magnitude column shifted by the zero point. -/
theorem amagCol_eq_raw_add (lg : ℚ → ℚ) (tm : Option ℚ) (rows : List Row)
    (hne : validMags lg rows ≠ []) :
    amagCol lg tm rows =
      (rawMags lg rows).map
        (fun x => x.add (EF.fin (zeroPoint tm (validMags lg rows)))) := by
  have hvm : (validMags lg rows).isEmpty = false := List.isEmpty_eq_false.mpr hne
  simp only [amagCol, hvm, Bool.false_eq_true, if_false]

/-- C1: with a reference magnitude TESSMAG and a non-empty set of finite
instrumental magnitudes, a calibrated entry is finite exactly where the
instrumental entry is, and the median of the calibrated magnitudes over
those rows is exactly the reference magnitude. -/
theorem c1_median_recenters (lg : ℚ → ℚ) (t : Table) (m : ℚ)
    (hne : validMags lg (filterRows t) ≠ []) :
    List.Forall₂ (fun a r => a.isFinite = r.isFinite)
      (amagCol lg (some m) (filterRows t)) (rawMags lg (filterRows t)) ∧
    medianOf ((amagCol lg (some m) (filterRows t)).filterMap EF.toFinite) = m := by
  have hamag := amagCol_eq_raw_add lg (some m) (filterRows t) hne
  constructor
  · rw [hamag]
    rw [List.forall₂_map_left_iff]
    rw [List.forall₂_same]
    intro x _
    exact EF.add_fin_right_isFinite x _
  · rw [hamag, filterMap_toFinite_map_add]
    have hvm : (rawMags lg (filterRows t)).filterMap EF.toFinite =
        validMags lg (filterRows t) := rfl
    rw [hvm, medianOf_map_add _ _ hne]
    simp [zeroPoint]

/-- Witness for C1 at the concrete table `tW` with reference magnitude 10. -/
theorem c1_median_recenters_witness :
    List.Forall₂ (fun a r => a.isFinite = r.isFinite)
      (amagCol lgW (some 10) (filterRows tW)) (rawMags lgW (filterRows tW)) ∧
    medianOf ((amagCol lgW (some 10) (filterRows tW)).filterMap EF.toFinite) = 10 :=
  c1_median_recenters lgW tW 10 (by decide)

/-- The instrumental magnitude of a nonpositive flux is non-finite (NaN for
negative flux or minus infinity, plus infinity for zero flux) and so is
excluded from the finite subset. -/
theorem instrMag_nonpos (lg : ℚ → ℚ) (f : EF) (h : f.isNonpos = true) :
    (instrMag lg f).isFinite = false ∧ (instrMag lg f).toFinite = none := by
  cases f with
  | fin q =>
    have hq : q ≤ 0 := by simpa [EF.isNonpos] using h
    rcases lt_or_eq_of_le hq with hlt | heq
    · have h1 : ¬ (0 < q) := not_lt.mpr hq
      have h2 : q ≠ 0 := ne_of_lt hlt
      simp [instrMag, EF.log10, h1, h2, EF.mul, EF.isFinite, EF.toFinite]
    · subst heq
      have h3 : ¬ ((0 : ℚ) < -(5/2)) := by norm_num
      have h4 : (-(5/2) : ℚ) < 0 := by norm_num
      simp [instrMag, EF.log10, EF.mul, h3, h4, EF.isFinite, EF.toFinite]
  | nan => simp [EF.isNonpos] at h
  | pinf => simp [EF.isNonpos] at h
  | ninf => simp [instrMag, EF.log10, EF.mul, EF.isFinite, EF.toFinite]

/-- C5: a filtered row with nonpositive flux is kept by the pipeline, its
instrumental and calibrated magnitudes are both non-finite, and its
instrumental magnitude contributes nothing to the finite subset used for
the median. -/
theorem c5_nonpos_flux (lg : ℚ → ℚ) (tm : Option ℚ) (t : Table) (i : ℕ) (r : Row)
    (hr : (filterRows t)[i]? = some r) (hnp : r.flux.isNonpos = true) :
    (pipeline lg tm t).rows = filterRows t ∧
    (rawMags lg (filterRows t))[i]? = some (instrMag lg r.flux) ∧
    (instrMag lg r.flux).isFinite = false ∧
    (instrMag lg r.flux).toFinite = none ∧
    (∃ y, (pipeline lg tm t).amag[i]? = some y ∧ y.isFinite = false) := by
  have hraw : (rawMags lg (filterRows t))[i]? = some (instrMag lg r.flux) := by
    rw [rawMags, List.getElem?_map, hr, Option.map_some']
  have hnf := instrMag_nonpos lg r.flux hnp
  refine ⟨rfl, hraw, hnf.1, hnf.2, ?_⟩
  have hpip : (pipeline lg tm t).amag = amagCol lg tm (filterRows t) := rfl
  rw [hpip]
  cases hvm : (validMags lg (filterRows t)).isEmpty with
  | true =>
    have hcol : amagCol lg tm (filterRows t) =
        (rawMags lg (filterRows t)).map (fun _ => EF.nan) := by
      simp only [amagCol, hvm, if_true]
    refine ⟨EF.nan, ?_, rfl⟩
    rw [hcol, List.getElem?_map, hraw, Option.map_some']
  | false =>
    have hcol := amagCol_eq_raw_add lg tm (filterRows t)
      (List.isEmpty_eq_false.mp hvm)
    refine ⟨(instrMag lg r.flux).add
      (EF.fin (zeroPoint tm (validMags lg (filterRows t)))), ?_, ?_⟩
    · rw [hcol, List.getElem?_map, hraw, Option.map_some']
    · rw [EF.add_fin_right_isFinite]
      exact hnf.1

/-- Concrete table used to instantiate C5 and C7: three rows with fluxes
10, -1 and 0, no TIME and no SAP_FLUX_ERR column. -/
def tC5 : Table :=
  { hasTime := false
    hasFluxErr := false
    rows :=
      [ { time := EF.fin 0, timeMasked := false, flux := EF.fin 10,
          fluxMasked := false, fluxErr := EF.fin 1 }
      , { time := EF.fin 0, timeMasked := false, flux := EF.fin (-1),
          fluxMasked := false, fluxErr := EF.fin 1 }
      , { time := EF.fin 0, timeMasked := false, flux := EF.fin 0,
          fluxMasked := false, fluxErr := EF.fin 1 } ] }

/-- The row of `tC5` with flux -1. -/
def rowNeg : Row :=
  { time := EF.fin 0, timeMasked := false, flux := EF.fin (-1),
    fluxMasked := false, fluxErr := EF.fin 1 }

/-- Witness for C5 at row 1 of `tC5` (flux -1). -/
theorem c5_nonpos_flux_witness :
    (pipeline lgW (some 10) tC5).rows = filterRows tC5 ∧
    (rawMags lgW (filterRows tC5))[1]? = some (instrMag lgW rowNeg.flux) ∧
    (instrMag lgW rowNeg.flux).isFinite = false ∧
    (instrMag lgW rowNeg.flux).toFinite = none ∧
    (∃ y, (pipeline lgW (some 10) tC5).amag[1]? = some y ∧ y.isFinite = false) :=
  c5_nonpos_flux lgW (some 10) tC5 1 rowNeg (by decide) (by decide)

theorem medianOf_pair (a b : ℚ) : medianOf [a, b] = (a + b) / 2 := by
  unfold medianOf
  by_cases h : a ≤ b
  · simp [List.insertionSort, List.orderedInsert, h]
  · simp only [List.insertionSort, List.orderedInsert, if_neg h]
    norm_num
    ring

theorem instrMag_pos (lg : ℚ → ℚ) (q : ℚ) (h : 0 < q) :
    instrMag lg (EF.fin q) = EF.fin (-(5/2) * lg q) := by
  simp [instrMag, EF.log10, h, EF.mul]

/-- The 5-row scenario table of the spec: time = [1,2,NaN,4,5],
flux = [10,-1,10,0,20], fluxError = [1,1,1,1,2], no explicit masks. -/
def t6 : Table :=
  { hasTime := true
    hasFluxErr := true
    rows :=
      [ { time := EF.fin 1, timeMasked := false, flux := EF.fin 10,
          fluxMasked := false, fluxErr := EF.fin 1 }
      , { time := EF.fin 2, timeMasked := false, flux := EF.fin (-1),
          fluxMasked := false, fluxErr := EF.fin 1 }
      , { time := EF.nan, timeMasked := false, flux := EF.fin 10,
          fluxMasked := false, fluxErr := EF.fin 1 }
      , { time := EF.fin 4, timeMasked := false, flux := EF.fin 0,
          fluxMasked := false, fluxErr := EF.fin 1 }
      , { time := EF.fin 5, timeMasked := false, flux := EF.fin 20,
          fluxMasked := false, fluxErr := EF.fin 2 } ] }

/-- Evaluation of the scenario columns for any finite logarithm reading:
the filtered fluxes, the finiteness pattern of the raw magnitudes, the
finite subset, and the two finite calibrated entries. -/
theorem t6_eval (lg : ℚ → ℚ) :
    (filterRows t6).map Row.flux =
      [EF.fin 10, EF.fin (-1), EF.fin 0, EF.fin 20] ∧
    (rawMags lg (filterRows t6)).map EF.isFinite = [true, false, false, true] ∧
    validMags lg (filterRows t6) = [-(5/2) * lg 10, -(5/2) * lg 20] ∧
    (amagCol lg (some 10) (filterRows t6))[0]? =
      some (EF.fin ((-(5/2) * lg 10) +
        (10 - ((-(5/2) * lg 10) + (-(5/2) * lg 20)) / 2))) ∧
    (amagCol lg (some 10) (filterRows t6))[3]? =
      some (EF.fin ((-(5/2) * lg 20) +
        (10 - ((-(5/2) * lg 10) + (-(5/2) * lg 20)) / 2))) := by
  have hfr : filterRows t6 =
      [ { time := EF.fin 1, timeMasked := false, flux := EF.fin 10,
          fluxMasked := false, fluxErr := EF.fin 1 }
      , { time := EF.fin 2, timeMasked := false, flux := EF.fin (-1),
          fluxMasked := false, fluxErr := EF.fin 1 }
      , { time := EF.fin 4, timeMasked := false, flux := EF.fin 0,
          fluxMasked := false, fluxErr := EF.fin 1 }
      , { time := EF.fin 5, timeMasked := false, flux := EF.fin 20,
          fluxMasked := false, fluxErr := EF.fin 2 } ] := by decide
  have h10 : instrMag lg (EF.fin 10) = EF.fin (-(5/2) * lg 10) :=
    instrMag_pos lg 10 (by norm_num)
  have h20 : instrMag lg (EF.fin 20) = EF.fin (-(5/2) * lg 20) :=
    instrMag_pos lg 20 (by norm_num)
  have hneg : instrMag lg (EF.fin (-1)) = EF.nan := by
    norm_num [instrMag, EF.log10, EF.mul]
  have hzero : instrMag lg (EF.fin 0) = EF.pinf := by
    norm_num [instrMag, EF.log10, EF.mul]
  have hraw : rawMags lg (filterRows t6) =
      [EF.fin (-(5/2) * lg 10), EF.nan, EF.pinf, EF.fin (-(5/2) * lg 20)] := by
    rw [hfr]
    show [instrMag lg (EF.fin 10), instrMag lg (EF.fin (-1)),
      instrMag lg (EF.fin 0), instrMag lg (EF.fin 20)] = _
    rw [h10, hneg, hzero, h20]
  have hvm : validMags lg (filterRows t6) =
      [-(5/2) * lg 10, -(5/2) * lg 20] := by
    rw [validMags, hraw]
    simp [EF.toFinite]
  have hmed : medianOf (validMags lg (filterRows t6)) =
      ((-(5/2) * lg 10) + (-(5/2) * lg 20)) / 2 := by
    rw [hvm, medianOf_pair]
  have hzp : zeroPoint (some 10) (validMags lg (filterRows t6)) =
      10 - ((-(5/2) * lg 10) + (-(5/2) * lg 20)) / 2 := by
    rw [zeroPoint, hmed]
  have hamag := amagCol_eq_raw_add lg (some 10) (filterRows t6)
    (by rw [hvm]; simp)
  refine ⟨by rw [hfr]; rfl, by rw [hraw]; rfl, hvm, ?_, ?_⟩
  · rw [hamag, hraw, hzp]
    rfl
  · rw [hamag, hraw, hzp]
    rfl

/-- C6 counterexample: under the concrete logarithm reading `lgW` (with
`lgW 10 = 1`, `lgW 20 = 1301/1000`, both values distinct as for the true
logarithm), the calibrated magnitude of the flux=10 row is
`10 + (mag10 - mag20)/2 = 8301/800`, not the reference magnitude 10: the
median of two finite values is their mean, not the first of them. -/
theorem c6_counterexample :
    (amagCol lgW (some 10) (filterRows t6))[0]? ≠ some (EF.fin 10) := by
  have h := t6_eval lgW
  rw [h.2.2.2.1]
  have : ((-(5/2) * lgW 10) + (10 - ((-(5/2) * lgW 10) + (-(5/2) * lgW 20)) / 2))
      = 8301/800 := by
    norm_num [lgW]
  rw [this]
  intro hcontr
  have := Option.some.inj hcontr
  have := EF.fin.inj this
  norm_num at this

/-- C6 (amended): in the 5-row scenario the NaN-time row is dropped leaving
fluxes [10,-1,0,20]; only the flux=10 and flux=20 rows have finite
instrumental magnitude; the zero point is the reference minus the median
(the mean) of those two finite values; and the calibrated magnitudes of the
flux=10 and flux=20 rows are `referenceMag + (mag10 - mag20)/2` and
`referenceMag + (mag20 - mag10)/2`, whose difference is `mag20 - mag10`. -/
theorem c6_scenario (lg : ℚ → ℚ) :
    (filterRows t6).map Row.flux =
      [EF.fin 10, EF.fin (-1), EF.fin 0, EF.fin 20] ∧
    (rawMags lg (filterRows t6)).map EF.isFinite = [true, false, false, true] ∧
    zeroPoint (some 10) (validMags lg (filterRows t6)) =
      10 - medianOf [-(5/2) * lg 10, -(5/2) * lg 20] ∧
    (amagCol lg (some 10) (filterRows t6))[0]? =
      some (EF.fin (10 + ((-(5/2) * lg 10) - (-(5/2) * lg 20)) / 2)) ∧
    (amagCol lg (some 10) (filterRows t6))[3]? =
      some (EF.fin (10 + ((-(5/2) * lg 20) - (-(5/2) * lg 10)) / 2)) := by
  obtain ⟨h1, h2, h3, h4, h5⟩ := t6_eval lg
  refine ⟨h1, h2, by rw [zeroPoint, h3], ?_, ?_⟩
  · rw [h4]
    congr 2
    ring
  · rw [h5]
    congr 2
    ring

/-- C7: when the SAP_FLUX_ERR column exists, the Source_AMag_Error_T1
column is `1.0857 * (fluxErr / flux)` at every filtered row (non-finite
results preserved by the IEEE operations); when it is absent, the column is
omitted, the warning flag is set, and a run that reaches the pipeline still
exits with code 0 regardless. -/
theorem c7_mag_error (lg : ℚ → ℚ) (tm : Option ℚ) (t : Table) :
    (t.hasFluxErr = true →
      (pipeline lg tm t).amagErr =
        some ((filterRows t).map (fun r =>
          EF.mul (EF.fin (10857/10000)) (r.fluxErr.div r.flux)))) ∧
    (t.hasFluxErr = false →
      (pipeline lg tm t).amagErr = none ∧
      (pipeline lg tm t).warnNoFluxErr = true) ∧
    (∀ (w : World) (a : Args) (f : Fits),
      w.inputFits = some f → f.hdu1 = Hdu1.tbl true t →
      (w.destContent.isSome && !a.overwrite) = false →
      (run lg w a).exitCode = 0) := by
  refine ⟨?_, ?_, ?_⟩
  · intro h
    simp [pipeline, h, magErrVal]
  · intro h
    simp [pipeline, h]
  · intro w a f hin hh hguard
    unfold run
    rw [hin]
    simp [hguard, hh]

/-- Witness for C7: the column is computed on `tW` (which has SAP_FLUX_ERR),
omitted with a warning on `tC5` (which lacks it), and a run on `tC5` still
exits 0. -/
theorem c7_mag_error_witness :
    (pipeline lgW (some 10) tW).amagErr =
      some ((filterRows tW).map (fun r =>
        EF.mul (EF.fin (10857/10000)) (r.fluxErr.div r.flux))) ∧
    ((pipeline lgW (some 10) tC5).amagErr = none ∧
      (pipeline lgW (some 10) tC5).warnNoFluxErr = true) ∧
    (run lgW { inputFits := some { tessMag := some 10, hdu1 := Hdu1.tbl true tC5 },
               destContent := none }
        { overwrite := false, zeroPointArg := 0 }).exitCode = 0 :=
  ⟨(c7_mag_error lgW (some 10) tW).1 rfl,
   (c7_mag_error lgW (some 10) tC5).2.1 rfl,
   (c7_mag_error lgW (some 10) tC5).2.2 _ _ _ rfl rfl rfl⟩

end TessLc
